import Mathlib

/-!
Verification of the country-data refresh pipeline of this repository.

The repository contains two variants of the refresh controller:
`src/currencyExchange/countryController.js` (suffix `_CC` below) and an
unnamed copy shipped in `src/unnamed/part_002` (suffix `_P2` below).
They differ in three load-bearing places, all modelled faithfully:
the handling of a non-positive exchange rate, the all-records-rejected
check before commit, and whether the completed-run metadata row is
written through the transaction client or through the pool.

External effects (HTTP responses of the two upstream APIs, the random
draw of `Math.random()`, the wall clock, and a possible throw of a
`client.query` call inside the batch transaction) are passed in as
explicit oracle parameters, so every definition is executable.
JS numbers are modelled as rationals; JS `undefined`/`null` as `Option`.
-/

/-- A raw country record as normalized from either upstream schema
(the element shape produced by the v3 transform at
countryController.js lines 148-155, or a v2 body element).
`currencies` is the ordered key list of the JS currencies object;
a missing or non-object currencies value is the empty list. -/
structure RawCountry where
  name : Option String
  capital : Option String
  region : Option String
  population : Option ℚ
  flag : Option String
  currencies : List String
deriving DecidableEq

/-- JS `x || null` on an optional number: 0 is falsy and collapses to null. -/
def jsOrQ : Option ℚ → Option ℚ
  | none => none
  | some x => if x = 0 then none else some x

/-- JS `s || null` on an optional string: the empty string collapses to null. -/
def jsOrStr : Option String → Option String
  | none => none
  | some s => if s = "" then none else some s

/-- `extractCurrencyCode` (countryController.js lines 40-63): null for a
missing, non-object or empty currencies object, otherwise the first key. -/
def extractCurrencyCode (currencies : List String) : Option String :=
  currencies.head?

/-- Whitespace as stripped by JS `String.prototype.trim`. -/
def isTrimWS (c : Char) : Bool :=
  c = ' ' || c = '\t' || c = '\n' || c = '\r'

/-- Name check of `validateCountryData` (lines 70-76): `country.name` must be
present, a string, and non-empty after trimming — i.e. not every character is
whitespace (this also covers the falsiness check `!country.name` for `""`). -/
def validName : Option String → Bool
  | none => false
  | some s => !(s.data.all isTrimWS)

/-- Population check of `validateCountryData` (lines 79-86): present, not NaN
(NaN is modelled as absence), and nonnegative. -/
def validPopulation : Option ℚ → Bool
  | none => false
  | some p => decide (0 ≤ p)

/-- `validateCountryData(country).isValid` (countryController.js lines 66-94). -/
def isValidCountry (c : RawCountry) : Bool :=
  validName c.name && validPopulation c.population

/-- `calculate_GDP_Factor` (countryController.js lines 35-37):
`Math.random() * (2000 - 1000) + 1000`, with the `Math.random()` draw
`r` (a value in `[0,1)`) passed explicitly. -/
def calculate_GDP_Factor (r : ℚ) : ℚ :=
  r * (2000 - 1000) + 1000

/-- The VALUES tuple persisted for one validated country
(countryController.js lines 310-319). -/
structure RowPayload where
  name : String
  capital : Option String
  region : Option String
  population : ℚ
  currency_code : Option String
  exchange_rate : Option ℚ
  estimated_gdp : Option ℚ
  flag_url : Option String
deriving DecidableEq

/-- Exchange-rate and GDP resolution of countryController.js lines 266-289:
`exchangeRate = exchangeRates[currencyCode] || null`, then
`if (exchangeRate && exchangeRate > 0)` compute the GDP, `else` only
`estimatedGDP = null` — a negative looked-up rate is kept in
`exchangeRate`. Returns `(exchange_rate, estimated_gdp)`. -/
def rateAndGdp_CC (rates : String → Option ℚ) (draw pop : ℚ) :
    Option String → Option ℚ × Option ℚ
  | none => (none, some 0)
  | some code =>
    match jsOrQ (rates code) with
    | none => (none, none)
    | some x =>
      if 0 < x then (some x, some (pop * calculate_GDP_Factor draw / x))
      else (some x, none)

/-- Exchange-rate and GDP resolution of part_002 lines 331-347: identical to
`rateAndGdp_CC` except that the `else` branch also resets
`exchangeRate = null`. -/
def rateAndGdp_P2 (rates : String → Option ℚ) (draw pop : ℚ) :
    Option String → Option ℚ × Option ℚ
  | none => (none, some 0)
  | some code =>
    match jsOrQ (rates code) with
    | none => (none, none)
    | some x =>
      if 0 < x then (some x, some (pop * calculate_GDP_Factor draw / x))
      else (none, none)

/-- The reconciliation of one validated record into the persisted VALUES,
countryController.js variant (lines 266-319). -/
def reconcile_CC (rates : String → Option ℚ) (draw : ℚ) (c : RawCountry) : RowPayload :=
  { name := c.name.getD ""
    capital := jsOrStr c.capital
    region := jsOrStr c.region
    population := c.population.getD 0
    currency_code := extractCurrencyCode c.currencies
    exchange_rate :=
      (rateAndGdp_CC rates draw (c.population.getD 0) (extractCurrencyCode c.currencies)).1
    estimated_gdp :=
      (rateAndGdp_CC rates draw (c.population.getD 0) (extractCurrencyCode c.currencies)).2
    flag_url := jsOrStr c.flag }

/-- The reconciliation of one validated record, part_002 variant
(lines 327-376). -/
def reconcile_P2 (rates : String → Option ℚ) (draw : ℚ) (c : RawCountry) : RowPayload :=
  { name := c.name.getD ""
    capital := jsOrStr c.capital
    region := jsOrStr c.region
    population := c.population.getD 0
    currency_code := extractCurrencyCode c.currencies
    exchange_rate :=
      (rateAndGdp_P2 rates draw (c.population.getD 0) (extractCurrencyCode c.currencies)).1
    estimated_gdp :=
      (rateAndGdp_P2 rates draw (c.population.getD 0) (extractCurrencyCode c.currencies)).2
    flag_url := jsOrStr c.flag }

/-- One row of the `countries` table (schema.sql lines 4-17); timestamps are
abstract instants. -/
structure CountryRow where
  name : String
  capital : Option String
  region : Option String
  population : ℚ
  currency_code : Option String
  exchange_rate : Option ℚ
  estimated_gdp : Option ℚ
  flag_url : Option String
  last_refreshed_at : ℕ
  created_at : ℕ
  updated_at : ℕ
deriving DecidableEq

/-- SQL `LOWER(name)`, computed characterwise. -/
def strLower (s : String) : List Char :=
  s.data.map Char.toLower

/-- Case-insensitive name comparison, as in the functional unique index
`idx_countries_name_unique ON countries (LOWER(name))` (schema.sql line 20). -/
def lowerEq (a b : String) : Bool :=
  strLower a == strLower b

/-- Whether the store already holds a row whose name matches `n`
case-insensitively. -/
def hasName (store : List CountryRow) (n : String) : Bool :=
  store.any fun row => lowerEq row.name n

/-- The `DO UPDATE SET` arm of the upsert (countryController.js lines
297-307): on a case-insensitive name conflict every mutable column is
overwritten, `last_refreshed_at` and `updated_at` are set to the current
instant, and `created_at` and the stored spelling of `name` are untouched. -/
def applyConflictUpdate (now : ℕ) (p : RowPayload) (row : CountryRow) : CountryRow :=
  if lowerEq row.name p.name then
    { row with
      capital := p.capital
      region := p.region
      population := p.population
      currency_code := p.currency_code
      exchange_rate := p.exchange_rate
      estimated_gdp := p.estimated_gdp
      flag_url := p.flag_url
      last_refreshed_at := now
      updated_at := now }
  else row

/-- The upsert of countryController.js lines 292-319:
`INSERT ... ON CONFLICT (LOWER(name)) DO UPDATE SET ...` — a conflicting
payload updates every matching row via `applyConflictUpdate`, a
non-conflicting one is appended with all timestamps defaulted to the
current instant. -/
def upsertRow (now : ℕ) (store : List CountryRow) (p : RowPayload) : List CountryRow :=
  if hasName store p.name then
    store.map (applyConflictUpdate now p)
  else
    store ++ [{ name := p.name
                capital := p.capital
                region := p.region
                population := p.population
                currency_code := p.currency_code
                exchange_rate := p.exchange_rate
                estimated_gdp := p.estimated_gdp
                flag_url := p.flag_url
                last_refreshed_at := now
                created_at := now
                updated_at := now }]

/-- The three distinct status strings written to `refresh_metadata`, as an
enumeration. The spec names them `completed`, `failed-directory-unavailable`
and `failed-rates-unavailable`; the code literals are recovered by
`RefreshStatus.dbString`. -/
inductive RefreshStatus
  | completed
  | failedDirectoryUnavailable
  | failedRatesUnavailable
deriving DecidableEq

/-- The literal SQL string the code stores for each status
(countryController.js lines 186, 233, 330). -/
def RefreshStatus.dbString : RefreshStatus → String
  | .completed => "completed"
  | .failedDirectoryUnavailable => "failed - countries API unavailable"
  | .failedRatesUnavailable => "failed - exchange rates API unavailable"

/-- One row of `refresh_metadata` (schema.sql lines 30-37). `viaTxClient`
records whether the INSERT was issued on the transaction client (`client.query`
between BEGIN and COMMIT) or on the pool (a separate, auto-committed write). -/
structure MetaRow where
  total_countries : ℕ
  status : RefreshStatus
  viaTxClient : Bool
deriving DecidableEq

/-- The observable outcome of one refresh invocation: the resulting
`countries` table, the `refresh_metadata` rows appended during the
invocation, and the HTTP status code of the response. -/
structure Outcome where
  store : List CountryRow
  meta : List MetaRow
  http : ℕ
deriving DecidableEq

/-- The per-record loop of the batch transaction (countryController.js lines
251-323): each fetched record is validated; invalid records are skipped and
counted, valid ones are reconciled (consuming the record's random draw) and
upserted. `failAt = some i` models the `client.query` of record index `i`
throwing (a persistence failure): the loop is abandoned, yielding `none`.
Returns the new store, the processed count and the rejected count. -/
def processLoop (rec : ℚ → RawCountry → RowPayload) (draws : ℕ → ℚ) (now : ℕ)
    (failAt : Option ℕ) :
    ℕ → List RawCountry → List CountryRow × ℕ × ℕ → Option (List CountryRow × ℕ × ℕ)
  | _, [], acc => some acc
  | i, c :: rest, (store, processed, errs) =>
    if isValidCountry c then
      if failAt = some i then none
      else
        processLoop rec draws now failAt (i + 1) rest
          (upsertRow now store (rec (draws i) c), processed + 1, errs)
    else
      processLoop rec draws now failAt (i + 1) rest (store, processed, errs + 1)

/-- The batch transaction of countryController.js lines 246-400: on a thrown
`client.query` the transaction is rolled back and the rethrown error reaches
the outer catch, which answers 500 without writing any metadata row; otherwise
the completed-run metadata row is inserted through the transaction client
(line 332, hence `viaTxClient = true`), the batch is committed and the
response is 200. There is no all-records-rejected check in this variant. -/
def refreshTx_CC (rates : String → Option ℚ) (draws : ℕ → ℚ) (now : ℕ)
    (failAt : Option ℕ) (countries : List RawCountry) (store : List CountryRow) : Outcome :=
  match processLoop (reconcile_CC rates) draws now failAt 0 countries (store, 0, 0) with
  | none => ⟨store, [], 500⟩
  | some (s, processed, _errs) => ⟨s, [⟨processed, .completed, true⟩], 200⟩

/-- The batch transaction of part_002 lines 306-466: additionally, if at least
one record was rejected and none was persisted, the transaction is rolled back
and the response is 400 with no metadata row (lines 382-387); the
completed-run row is written through the pool by `logRefreshMetadata`
(lines 174-180, hence `viaTxClient = false`). -/
def refreshTx_P2 (rates : String → Option ℚ) (draws : ℕ → ℚ) (now : ℕ)
    (failAt : Option ℕ) (countries : List RawCountry) (store : List CountryRow) : Outcome :=
  match processLoop (reconcile_P2 rates) draws now failAt 0 countries (store, 0, 0) with
  | none => ⟨store, [], 500⟩
  | some (s, processed, errs) =>
    if 0 < errs ∧ processed = 0 then ⟨store, [], 400⟩
    else ⟨s, [⟨processed, .completed, false⟩], 200⟩

/-- Directory acquisition with version fallback (countryController.js lines
134-175): the outcome of the v3 fetch-and-transform is tried first; on any
failure the v2 outcome is used. Both outcomes are oracle parameters. -/
def acquireDirectory (v3 v2 : Except Unit (List RawCountry)) :
    Except Unit (List RawCountry) :=
  match v3 with
  | .ok l => .ok l
  | .error _ => v2

/-- Validation of the exchange-rates response, countryController.js lines
205-220: `exchangeResponse.data` must be present (outer `Option`),
`data.rates` must be present and an object (inner `Option`, where `none`
collapses a missing or non-object value), and there must be at least 50
entries. Rate values are never inspected. -/
def validateRates_CC :
    Option (Option (List (String × ℚ))) → Except Unit (List (String × ℚ))
  | none => .error ()
  | some none => .error ()
  | some (some rates) => if rates.length < 50 then .error () else .ok rates

/-- Validation of the exchange-rates response, part_002 lines 264-281: the
same structural check, but the minimum-count check is commented out, so even
an empty rates object is accepted. -/
def validateRates_P2 :
    Option (Option (List (String × ℚ))) → Except Unit (List (String × ℚ))
  | none => .error ()
  | some none => .error ()
  | some (some rates) => .ok rates

/-- JS object lookup `exchangeRates[code]` on the decoded rates object. -/
def lookupRates (l : List (String × ℚ)) (code : String) : Option ℚ :=
  (l.find? fun p => p.1 == code).map fun p => p.2

/-- `refreshCountriesData` of countryController.js (lines 124-412). `v3`/`v2`
are the outcomes of the two directory fetches, `ratesFetch` the outcome of the
exchange-rates fetch (`.error` = retries exhausted), `draws` the stream of
`Math.random()` values, `failAt` the optional index of a throwing upsert.
Each failure exit writes exactly the metadata row the code writes on that
path (pool writes, lines 184-188 and 231-235) and answers 503. -/
def refresh_CC (v3 v2 : Except Unit (List RawCountry))
    (ratesFetch : Except Unit (Option (Option (List (String × ℚ)))))
    (draws : ℕ → ℚ) (now : ℕ) (failAt : Option ℕ) (store : List CountryRow) : Outcome :=
  match acquireDirectory v3 v2 with
  | .error _ => ⟨store, [⟨0, .failedDirectoryUnavailable, false⟩], 503⟩
  | .ok countries =>
    match ratesFetch with
    | .error _ => ⟨store, [⟨0, .failedRatesUnavailable, false⟩], 503⟩
    | .ok resp =>
      match validateRates_CC resp with
      | .error _ => ⟨store, [⟨0, .failedRatesUnavailable, false⟩], 503⟩
      | .ok rates => refreshTx_CC (lookupRates rates) draws now failAt countries store

/-- `refreshCountriesData` of part_002 (lines 183-478), differing from
`refresh_CC` only in the rates validation and the transaction body. -/
def refresh_P2 (v3 v2 : Except Unit (List RawCountry))
    (ratesFetch : Except Unit (Option (Option (List (String × ℚ)))))
    (draws : ℕ → ℚ) (now : ℕ) (failAt : Option ℕ) (store : List CountryRow) : Outcome :=
  match acquireDirectory v3 v2 with
  | .error _ => ⟨store, [⟨0, .failedDirectoryUnavailable, false⟩], 503⟩
  | .ok countries =>
    match ratesFetch with
    | .error _ => ⟨store, [⟨0, .failedRatesUnavailable, false⟩], 503⟩
    | .ok resp =>
      match validateRates_P2 resp with
      | .error _ => ⟨store, [⟨0, .failedRatesUnavailable, false⟩], 503⟩
      | .ok rates => refreshTx_P2 (lookupRates rates) draws now failAt countries store

/-- Result of one call to `fetchWithRetry` (countryController.js lines
97-121): a response, a thrown terminal-failure error, or the JS `undefined`
that falls out when the `for` loop body never executes. -/
inductive FetchResult (α : Type)
  | ok (a : α)
  | thrown
  | undef
deriving DecidableEq

/-- The backoff delay in milliseconds before retrying after the failed
attempt with 0-based index `i` (countryController.js line 116):
`i < 2 ? (i + 1) * 2000 : (i + 1) * 5000`. -/
def delayMs (i : ℕ) : ℕ :=
  if i < 2 then (i + 1) * 2000 else (i + 1) * 5000

/-- The retry loop of `fetchWithRetry`, as a function of the 0-based index
`i` of the current attempt and the number `remaining` of loop iterations
still allowed (`retries - i` in the source). `attempt j = some r` means the
GET of attempt `j` resolves with response `r`; `none` means it rejects.
Alongside the result, the list of backoff delays actually waited is
returned. -/
def fetchLoop {α : Type} (attempt : ℕ → Option α) : ℕ → ℕ → FetchResult α × List ℕ
  | _, 0 => (.undef, [])
  | i, n + 1 =>
    match attempt i with
    | some r => (.ok r, [])
    | none =>
      if n = 0 then (.thrown, [])
      else
        let rest := fetchLoop attempt (i + 1) n
        (rest.1, delayMs i :: rest.2)

/-- `fetchWithRetry(url, options, retries)`: the loop `for (let i = 0;
i < retries; i++)` runs `max retries 0` times starting at index 0. -/
def fetchWithRetry {α : Type} (attempt : ℕ → Option α) (retries : ℤ) :
    FetchResult α × List ℕ :=
  fetchLoop attempt 0 retries.toNat

/-- The lower-cased name column of every row, in store order; the functional
unique index of schema.sql line 20 asserts this list has no duplicates. -/
def storeKeys (store : List CountryRow) : List (List Char) :=
  store.map fun r => strLower r.name

/-- A fetched record that passes validation: a currency `XYZ`, population
1000000. -/
def cValid : RawCountry :=
  ⟨some "Ruritania", some "Rurital", some "Europe", some 1000000, some "flag.svg", ["XYZ"]⟩

/-- A fetched record that fails validation (no name). -/
def cInvalid : RawCountry :=
  ⟨none, none, none, some 5, none, []⟩

/-- A structurally valid decoded rates object with 50 entries, mapping
`XYZ` to 100. -/
def ratesXYZ : List (String × ℚ) :=
  ("XYZ", 100) :: (List.range 49).map fun n => (toString n, 1)

/-- A rate table whose only entry maps `XYZ` to the negative rate -1. -/
def ratesNegXYZ : String → Option ℚ :=
  fun code => if code = "XYZ" then some (-1) else none

/-- A structurally valid decoded rates object with 50 entries, every rate
negative. -/
def negRates : List (String × ℚ) :=
  (List.range 50).map fun n => (toString n, -1)

/-- A one-row store holding `Ruritania`. -/
def demoStore : List CountryRow :=
  [{ name := "Ruritania"
     capital := some "Rurital"
     region := some "Europe"
     population := 1000000
     currency_code := some "XYZ"
     exchange_rate := some 100
     estimated_gdp := some 15000000
     flag_url := some "flag.svg"
     last_refreshed_at := 1
     created_at := 1
     updated_at := 1 }]

/-- An incoming payload whose name matches `demoStore`'s row only
case-insensitively. -/
def demoPayload : RowPayload :=
  { name := "RURITANIA"
    capital := some "New Rurital"
    region := some "Europe"
    population := 1100000
    currency_code := some "XYZ"
    exchange_rate := some 90
    estimated_gdp := some 17000000
    flag_url := some "flag2.svg" }

/-- A validated record that reports no currency at all. -/
def cNoCurrency : RawCountry :=
  ⟨some "Atlantis", none, none, some 7, none, []⟩

/-! Helper lemmas shared between claims -/

theorem validateRates_CC_ok_iff (resp : Option (Option (List (String × ℚ))))
    (rl : List (String × ℚ)) :
    validateRates_CC resp = .ok rl ↔ resp = some (some rl) ∧ 50 ≤ rl.length := by
  constructor
  · intro h
    match resp with
    | none => simp [validateRates_CC] at h
    | some none => simp [validateRates_CC] at h
    | some (some rates) =>
      by_cases hl : rates.length < 50
      · simp [validateRates_CC, hl] at h
      · simp [validateRates_CC, hl] at h
        subst h
        exact ⟨rfl, by omega⟩
  · rintro ⟨rfl, hlen⟩
    simp [validateRates_CC]
    omega

theorem validateRates_P2_ok_iff (resp : Option (Option (List (String × ℚ))))
    (rl : List (String × ℚ)) :
    validateRates_P2 resp = .ok rl ↔ resp = some (some rl) := by
  constructor
  · intro h
    match resp with
    | none => simp [validateRates_P2] at h
    | some none => simp [validateRates_P2] at h
    | some (some rates) =>
      simp [validateRates_P2] at h
      subst h
      rfl
  · rintro rfl
    rfl

theorem refresh_CC_tx (v2 : Except Unit (List RawCountry))
    (countries : List RawCountry) (resp : Option (Option (List (String × ℚ))))
    (rl : List (String × ℚ)) (draws : ℕ → ℚ) (now : ℕ) (failAt : Option ℕ)
    (store : List CountryRow) (hv : validateRates_CC resp = .ok rl) :
    refresh_CC (.ok countries) v2 (.ok resp) draws now failAt store
      = refreshTx_CC (lookupRates rl) draws now failAt countries store := by
  simp only [refresh_CC, acquireDirectory]
  rw [hv]

theorem refresh_P2_tx (v2 : Except Unit (List RawCountry))
    (countries : List RawCountry) (resp : Option (Option (List (String × ℚ))))
    (rl : List (String × ℚ)) (draws : ℕ → ℚ) (now : ℕ) (failAt : Option ℕ)
    (store : List CountryRow) (hv : validateRates_P2 resp = .ok rl) :
    refresh_P2 (.ok countries) v2 (.ok resp) draws now failAt store
      = refreshTx_P2 (lookupRates rl) draws now failAt countries store := by
  simp only [refresh_P2, acquireDirectory]
  rw [hv]

theorem refresh_CC_rates_invalid (v2 : Except Unit (List RawCountry))
    (countries : List RawCountry) (resp : Option (Option (List (String × ℚ))))
    (draws : ℕ → ℚ) (now : ℕ) (failAt : Option ℕ) (store : List CountryRow)
    (hv : validateRates_CC resp = .error ()) :
    refresh_CC (.ok countries) v2 (.ok resp) draws now failAt store
      = ⟨store, [⟨0, .failedRatesUnavailable, false⟩], 503⟩ := by
  simp only [refresh_CC, acquireDirectory]
  rw [hv]

theorem refresh_P2_rates_invalid (v2 : Except Unit (List RawCountry))
    (countries : List RawCountry) (resp : Option (Option (List (String × ℚ))))
    (draws : ℕ → ℚ) (now : ℕ) (failAt : Option ℕ) (store : List CountryRow)
    (hv : validateRates_P2 resp = .error ()) :
    refresh_P2 (.ok countries) v2 (.ok resp) draws now failAt store
      = ⟨store, [⟨0, .failedRatesUnavailable, false⟩], 503⟩ := by
  simp only [refresh_P2, acquireDirectory]
  rw [hv]

/-! C1 — reconciliation branches (corrected) -/

/-- C1, counterexample: for a validated record whose currency code has the
matching rate -1 (the claim's "matching rate ≤ 0" case, and `Math.random()`
drawing 0), countryController.js persists `exchangeRate = -1`, not the
`exchangeRate = null` the claim requires: line 273 only nulls a missing or
zero (falsy) rate, and the `else` of line 279 keeps the looked-up value. -/
theorem C1_counterexample :
    (reconcile_CC ratesNegXYZ 0 cValid).currency_code = some "XYZ" ∧
    (reconcile_CC ratesNegXYZ 0 cValid).exchange_rate = some (-1) := by
  exact ⟨by decide, by decide⟩

/-- C1 (amended): for every validated record, if no currency code is present
both variants persist `currencyCode = null`, `exchangeRate = null`,
`estimatedOutput = 0`; if a code is present and the rate table has no
matching rate or the matching rate is 0, both variants persist that code with
`exchangeRate = null` and `estimatedOutput = null`; if the matching rate is
negative, part_002 behaves as the claim states (`exchangeRate = null`,
`estimatedOutput = null`) but countryController.js persists the negative
rate itself as `exchangeRate` (with `estimatedOutput = null`). -/
theorem C1_reconcile_branches (rates : String → Option ℚ) (draw : ℚ) (c : RawCountry) :
    (extractCurrencyCode c.currencies = none →
      (reconcile_CC rates draw c).currency_code = none ∧
      (reconcile_CC rates draw c).exchange_rate = none ∧
      (reconcile_CC rates draw c).estimated_gdp = some 0 ∧
      (reconcile_P2 rates draw c).currency_code = none ∧
      (reconcile_P2 rates draw c).exchange_rate = none ∧
      (reconcile_P2 rates draw c).estimated_gdp = some 0) ∧
    (∀ code, extractCurrencyCode c.currencies = some code →
      (rates code = none ∨ rates code = some 0) →
      (reconcile_CC rates draw c).currency_code = some code ∧
      (reconcile_CC rates draw c).exchange_rate = none ∧
      (reconcile_CC rates draw c).estimated_gdp = none ∧
      (reconcile_P2 rates draw c).currency_code = some code ∧
      (reconcile_P2 rates draw c).exchange_rate = none ∧
      (reconcile_P2 rates draw c).estimated_gdp = none) ∧
    (∀ code x, extractCurrencyCode c.currencies = some code →
      rates code = some x → x < 0 →
      (reconcile_CC rates draw c).currency_code = some code ∧
      (reconcile_CC rates draw c).exchange_rate = some x ∧
      (reconcile_CC rates draw c).estimated_gdp = none ∧
      (reconcile_P2 rates draw c).currency_code = some code ∧
      (reconcile_P2 rates draw c).exchange_rate = none ∧
      (reconcile_P2 rates draw c).estimated_gdp = none) := by
  refine ⟨fun h => ?_, fun code h hr => ?_, fun code x h hr hx => ?_⟩
  · simp [reconcile_CC, reconcile_P2, rateAndGdp_CC, rateAndGdp_P2, h]
  · rcases hr with hr | hr <;>
      simp [reconcile_CC, reconcile_P2, rateAndGdp_CC, rateAndGdp_P2, jsOrQ, h, hr]
  · have hne : x ≠ 0 := ne_of_lt hx
    have hnpos : ¬(0 < x) := not_lt.mpr (le_of_lt hx)
    simp [reconcile_CC, reconcile_P2, rateAndGdp_CC, rateAndGdp_P2, jsOrQ, h, hr, hne, hnpos]

/-- C1, witness for the amended claim, covering each branch at a concrete
record: no currency; a code with no matching rate; a code with rate -1. -/
theorem C1_branches_witness :
    ((reconcile_CC (fun _ => none) 0 cNoCurrency).currency_code = none ∧
     (reconcile_CC (fun _ => none) 0 cNoCurrency).exchange_rate = none ∧
     (reconcile_CC (fun _ => none) 0 cNoCurrency).estimated_gdp = some 0) ∧
    ((reconcile_CC (fun _ => none) 0 cValid).currency_code = some "XYZ" ∧
     (reconcile_CC (fun _ => none) 0 cValid).exchange_rate = none ∧
     (reconcile_CC (fun _ => none) 0 cValid).estimated_gdp = none) ∧
    ((reconcile_P2 ratesNegXYZ 0 cValid).exchange_rate = none ∧
     (reconcile_P2 ratesNegXYZ 0 cValid).estimated_gdp = none ∧
     (reconcile_CC ratesNegXYZ 0 cValid).exchange_rate = some (-1)) := by
  refine ⟨?_, ?_, ?_⟩
  · have h := (C1_reconcile_branches (fun _ => none) 0 cNoCurrency).1 rfl
    exact ⟨h.1, h.2.1, h.2.2.1⟩
  · have h := (C1_reconcile_branches (fun _ => none) 0 cValid).2.1 "XYZ" rfl (Or.inl rfl)
    exact ⟨h.1, h.2.1, h.2.2.1⟩
  · have h := (C1_reconcile_branches ratesNegXYZ 0 cValid).2.2 "XYZ" (-1) rfl (by decide)
      (by norm_num)
    exact ⟨h.2.2.2.2.1, h.2.2.2.2.2, h.2.1⟩

/-! C5 — GDP estimate bounds (corrected) -/

/-- C5, counterexample: with the admissible draw `Math.random() = 0` the
multiplier is exactly 1000, so for the reconciled record the estimate equals
the claimed strict lower bound `population × 1000 / rate`
(1000000 × 1000 / 100 = 10000000) instead of lying strictly between the
bounds. -/
theorem C5_counterexample :
    (reconcile_CC (lookupRates ratesXYZ) 0 cValid).estimated_gdp
      = some ((1000000 : ℚ) * 1000 / 100) ∧
    ¬ ((1000000 : ℚ) * 1000 / 100 < (1000000 : ℚ) * 1000 / 100) := by
  constructor
  · have hl : lookupRates ratesXYZ "XYZ" = some 100 := by decide
    have h0 : cValid.population.getD 0 = 1000000 := by decide
    have hc : extractCurrencyCode cValid.currencies = some "XYZ" := by decide
    simp only [reconcile_CC, hc, hl, h0, rateAndGdp_CC, jsOrQ]
    norm_num [calculate_GDP_Factor]
  · norm_num

/-- C5 (amended): for every reconciled record with a matching positive rate,
the estimate equals `population × calculate_GDP_Factor(r) / rate` for the
run's draw `r ∈ [0,1)`; it always lies in the half-open interval
`[population×1000/rate, population×2000/rate)` when the population is
positive, with equality at the left end exactly when the draw is 0, and it
collapses to the single point 0 when the population is 0. Strict two-sided
bounds hold only for a positive population and a nonzero draw. -/
theorem C5_gdp_bounds (rates : String → Option ℚ) (draw : ℚ) (c : RawCountry)
    (code : String) (x pop : ℚ)
    (hd0 : 0 ≤ draw) (hd1 : draw < 1)
    (hcode : extractCurrencyCode c.currencies = some code)
    (hrate : rates code = some x) (hx : 0 < x)
    (hpop : c.population = some pop) (hpop0 : 0 ≤ pop) :
    (reconcile_CC rates draw c).estimated_gdp
      = some (pop * calculate_GDP_Factor draw / x) ∧
    pop * 1000 / x ≤ pop * calculate_GDP_Factor draw / x ∧
    (0 < pop → pop * calculate_GDP_Factor draw / x < pop * 2000 / x) ∧
    (0 < pop → 0 < draw → pop * 1000 / x < pop * calculate_GDP_Factor draw / x) ∧
    (pop = 0 → pop * calculate_GDP_Factor draw / x = 0) := by
  have hne : x ≠ 0 := ne_of_gt hx
  refine ⟨?_, ?_, fun hp => ?_, fun hp hd => ?_, fun hp => by rw [hp]; ring⟩
  · simp [reconcile_CC, rateAndGdp_CC, jsOrQ, hcode, hrate, hne, hx, hpop]
  · rw [div_le_div_iff₀ hx hx]
    have : 0 ≤ pop * (1000 * draw) := by positivity
    unfold calculate_GDP_Factor
    nlinarith
  · rw [div_lt_div_iff₀ hx hx]
    unfold calculate_GDP_Factor
    nlinarith [mul_pos (mul_pos hp hx) (sub_pos.mpr hd1)]
  · rw [div_lt_div_iff₀ hx hx]
    unfold calculate_GDP_Factor
    nlinarith [mul_pos (mul_pos hp hx) hd]

/-- C5, witness: the record `cValid` (population 1000000) against rate 100
with draw 1/2 satisfies the amended bounds. -/
theorem C5_bounds_witness :
    (reconcile_CC (lookupRates ratesXYZ) (1/2) cValid).estimated_gdp
      = some ((1000000 : ℚ) * calculate_GDP_Factor (1/2) / 100) ∧
    (1000000 : ℚ) * 1000 / 100 < (1000000 : ℚ) * calculate_GDP_Factor (1/2) / 100 ∧
    (1000000 : ℚ) * calculate_GDP_Factor (1/2) / 100 < (1000000 : ℚ) * 2000 / 100 := by
  have h := C5_gdp_bounds (lookupRates ratesXYZ) (1/2) cValid "XYZ" 100 1000000
    (by norm_num) (by norm_num) (by decide) (by decide) (by norm_num) (by decide) (by norm_num)
  exact ⟨h.1, h.2.2.2.1 (by norm_num) (by norm_num), h.2.2.1 (by norm_num)⟩

/-! C6 — exchange-rate response validation (corrected) -/

/-- C6, counterexample: a structurally well-formed response whose 50 rates
are all negative passes countryController.js's validation (lines 205-220
check only that `data.rates` is an object with at least 50 keys, never that
the values are positive numbers), and part_002 (the count check commented
out, lines 273-279) even accepts an empty mapping — so a rate table is
returned in cases the claim says must be treated as SourceUnavailable. -/
theorem C6_counterexample :
    validateRates_CC (some (some negRates)) = .ok negRates ∧
    negRates.all (fun p => decide (p.2 < 0)) = true ∧
    validateRates_P2 (some (some [])) = .ok [] := by
  exact ⟨rfl, by decide, rfl⟩

/-- C6 (amended): the acquisition step checks structure only. A rate table
is returned iff `response.data` and `data.rates` are present and `rates` is
an object — with, in countryController.js only, at least 50 entries;
part_002 accepts even an empty mapping, and neither variant inspects the
rate values, so non-positive rates are accepted. Any response failing these
structural checks makes the run fail with the rates-unavailable status and
a 503, without touching the store. -/
theorem C6_rates_validation (resp : Option (Option (List (String × ℚ))))
    (rl : List (String × ℚ)) (v2 : Except Unit (List RawCountry))
    (countries : List RawCountry) (draws : ℕ → ℚ) (now : ℕ) (failAt : Option ℕ)
    (store : List CountryRow) :
    (validateRates_CC resp = .ok rl ↔ resp = some (some rl) ∧ 50 ≤ rl.length) ∧
    (validateRates_P2 resp = .ok rl ↔ resp = some (some rl)) ∧
    (validateRates_CC resp = .error () →
      refresh_CC (.ok countries) v2 (.ok resp) draws now failAt store
        = ⟨store, [⟨0, .failedRatesUnavailable, false⟩], 503⟩) ∧
    (validateRates_P2 resp = .error () →
      refresh_P2 (.ok countries) v2 (.ok resp) draws now failAt store
        = ⟨store, [⟨0, .failedRatesUnavailable, false⟩], 503⟩) :=
  ⟨validateRates_CC_ok_iff resp rl, validateRates_P2_ok_iff resp rl,
    fun hv => refresh_CC_rates_invalid v2 countries resp draws now failAt store hv,
    fun hv => refresh_P2_rates_invalid v2 countries resp draws now failAt store hv⟩

/-- C6, witness: the iff accepts the 50-entry table `ratesXYZ`, and a
missing `data.rates` is answered with a rates-unavailable run row and 503. -/
theorem C6_rates_witness :
    validateRates_CC (some (some ratesXYZ)) = .ok ratesXYZ ∧
    refresh_CC (.ok [cValid]) (.error ()) (.ok (some none)) (fun _ => 0) 7 none []
      = ⟨[], [⟨0, .failedRatesUnavailable, false⟩], 503⟩ := by
  have h := C6_rates_validation (some (some ratesXYZ)) ratesXYZ (.error ()) [cValid]
    (fun _ => 0) 7 none []
  have h2 := C6_rates_validation (some none) ratesXYZ (.error ()) [cValid]
    (fun _ => 0) 7 none []
  exact ⟨h.1.mpr ⟨rfl, by decide⟩, h2.2.2.1 rfl⟩

/-! C7 — directory-unavailable outcome (confirmed) -/

/-- C7, confirmed: when the directory fetch exhausts its retries (both the
v3 attempt and the v2 fallback end in failure), both controller variants
leave the countries store untouched, record exactly one refresh_metadata
row with `total_countries = 0` and the directory-unavailable status (the
spec's enumerated value `failed-directory-unavailable`, stored by the code
as the literal of `RefreshStatus.dbString`), and answer HTTP 503 — for
every rates outcome, draw stream, clock value, transaction-failure oracle
and starting store. -/
theorem C7_directory_unavailable
    (ratesFetch : Except Unit (Option (Option (List (String × ℚ)))))
    (draws : ℕ → ℚ) (now : ℕ) (failAt : Option ℕ) (store : List CountryRow) :
    refresh_CC (.error ()) (.error ()) ratesFetch draws now failAt store
      = ⟨store, [⟨0, .failedDirectoryUnavailable, false⟩], 503⟩ ∧
    refresh_P2 (.error ()) (.error ()) ratesFetch draws now failAt store
      = ⟨store, [⟨0, .failedDirectoryUnavailable, false⟩], 503⟩ ∧
    RefreshStatus.dbString .failedDirectoryUnavailable
      = "failed - countries API unavailable" :=
  ⟨rfl, rfl, rfl⟩

/-! C8 — retry backoff schedule (confirmed) -/

/-- C8, confirmed: for the failed attempt with 1-based index `k` that is not
the last attempt (at least one more loop iteration remains), the wait before
the next attempt is `delayMs (k-1)` milliseconds, which equals `k × 2000` ms
(k × 2 s) for `k ≤ 2` and `k × 5000` ms (k × 5 s) for `k ≥ 3`, and the
schedule is monotonically non-decreasing in `k`. -/
theorem C8_backoff_schedule (k n : ℕ) (attempt : ℕ → Option ℚ) (hk : 1 ≤ k)
    (hfail : attempt (k - 1) = none) :
    delayMs (k - 1) = (if k ≤ 2 then k * 2000 else k * 5000) ∧
    delayMs (k - 1) ≤ delayMs k ∧
    (fetchLoop attempt (k - 1) (n + 2)).2.head? = some (delayMs (k - 1)) := by
  refine ⟨?_, ?_, ?_⟩
  · unfold delayMs
    split <;> split <;> omega
  · unfold delayMs
    split <;> split <;> omega
  · simp [fetchLoop, hfail]

/-- C8, witness: attempt 3 of 5 failing waits 15000 ms. -/
theorem C8_backoff_witness :
    delayMs (3 - 1) = (if 3 ≤ 2 then 3 * 2000 else 3 * 5000) ∧
    delayMs (3 - 1) ≤ delayMs 3 ∧
    (fetchLoop (fun _ => (none : Option ℚ)) (3 - 1) (1 + 2)).2.head?
      = some (delayMs (3 - 1)) :=
  C8_backoff_schedule 3 1 (fun _ => none) (by norm_num) rfl

/-! C9 — conflict update semantics (confirmed) -/

/-- C9, confirmed: when the incoming payload conflicts case-insensitively
with stored rows, the upsert keeps the row count, and positionally: every
conflicting row has capital, region, population, currency_code,
exchange_rate, estimated_gdp and flag_url overwritten with the incoming
values and last_refreshed_at/updated_at set to the current instant, while
its created_at (and stored name spelling) is unchanged; every
non-conflicting row is untouched. -/
theorem C9_conflict_update (now : ℕ) (store : List CountryRow) (p : RowPayload)
    (h : hasName store p.name = true) :
    (upsertRow now store p).length = store.length ∧
    ∀ (i : ℕ) (old : CountryRow), store[i]? = some old →
      ∃ new, (upsertRow now store p)[i]? = some new ∧
        (lowerEq old.name p.name = true →
          new.capital = p.capital ∧ new.region = p.region ∧
          new.population = p.population ∧ new.currency_code = p.currency_code ∧
          new.exchange_rate = p.exchange_rate ∧ new.estimated_gdp = p.estimated_gdp ∧
          new.flag_url = p.flag_url ∧ new.last_refreshed_at = now ∧
          new.updated_at = now ∧ new.created_at = old.created_at ∧
          new.name = old.name) ∧
        (lowerEq old.name p.name = false → new = old) := by
  unfold upsertRow
  rw [h]
  simp only [if_true]
  refine ⟨by simp, fun i old hold => ?_⟩
  refine ⟨applyConflictUpdate now p old, ?_, fun hl => ?_, fun hl => ?_⟩
  · rw [List.getElem?_map, hold]
    rfl
  · simp [applyConflictUpdate, hl]
  · simp [applyConflictUpdate, hl]

/-- C9, witness: upserting `RURITANIA` over the stored `Ruritania` keeps one
row, overwrites its mutable columns and preserves created_at. -/
theorem C9_conflict_witness :
    hasName demoStore demoPayload.name = true ∧
    (upsertRow 9 demoStore demoPayload).length = demoStore.length :=
  ⟨by decide, (C9_conflict_update 9 demoStore demoPayload (by decide)).1⟩

/-! C10 — fetchWithRetry with zero retries (confirmed) -/

/-- C10, confirmed: called with `retries ≤ 0`, the `for (let i = 0;
i < retries; i++)` loop of fetchWithRetry never executes its body, so the
function resolves with JS `undefined` — neither a response object nor the
thrown terminal-failure error — leaving a caller that reads `.data` on the
result to dereference undefined. -/
theorem C10_zero_retries {α : Type} (attempt : ℕ → Option α) (retries : ℤ)
    (h : retries ≤ 0) :
    fetchWithRetry attempt retries = (.undef, []) ∧
    (∀ r, (fetchWithRetry attempt retries).1 ≠ FetchResult.ok r) ∧
    (fetchWithRetry attempt retries).1 ≠ FetchResult.thrown := by
  have h0 : retries.toNat = 0 := Int.toNat_of_nonpos h
  have hfix : fetchWithRetry attempt retries = (.undef, []) := by
    unfold fetchWithRetry
    rw [h0]
    rfl
  refine ⟨hfix, fun r => ?_, ?_⟩ <;> rw [hfix] <;> simp

/-- C10, witness: `retries = 0` yields the undefined result. -/
theorem C10_zero_retries_witness :
    (0 : ℤ) ≤ 0 ∧ fetchWithRetry (fun _ => (none : Option ℚ)) 0 = (.undef, []) :=
  ⟨le_refl 0, (C10_zero_retries (fun _ => none) 0 (le_refl 0)).1⟩

/-! Store lemmas for the upsert (used by C2, C3, C4) -/

theorem applyConflictUpdate_name (now : ℕ) (p : RowPayload) (row : CountryRow) :
    (applyConflictUpdate now p row).name = row.name := by
  unfold applyConflictUpdate
  split <;> rfl

theorem hasName_iff_mem (store : List CountryRow) (s : String) :
    hasName store s = true ↔ strLower s ∈ storeKeys store := by
  unfold hasName storeKeys lowerEq
  simp [List.any_eq_true, List.mem_map, beq_iff_eq]

theorem storeKeys_map_update (now : ℕ) (p : RowPayload) (store : List CountryRow) :
    storeKeys (store.map (applyConflictUpdate now p)) = storeKeys store := by
  unfold storeKeys
  rw [List.map_map]
  apply List.map_congr_left
  intro row _
  show strLower (applyConflictUpdate now p row).name = strLower row.name
  rw [applyConflictUpdate_name]

theorem storeKeys_upsert_nodup (now : ℕ) (store : List CountryRow) (p : RowPayload)
    (h : (storeKeys store).Nodup) : (storeKeys (upsertRow now store p)).Nodup := by
  unfold upsertRow
  cases hn : hasName store p.name with
  | true =>
    rw [if_pos rfl]
    rw [storeKeys_map_update]
    exact h
  | false =>
    rw [if_neg (by simp)]
    unfold storeKeys
    rw [List.map_append]
    rw [List.nodup_append]
    refine ⟨h, List.nodup_singleton _, ?_⟩
    intro k hk hk1
    simp only [List.map_cons, List.map_nil, List.mem_singleton] at hk1
    subst hk1
    have : hasName store p.name = true := (hasName_iff_mem store p.name).mpr hk
    rw [hn] at this
    cases this

theorem hasName_upsertRow_of (now : ℕ) (store : List CountryRow) (p : RowPayload)
    (s : String) (h : hasName store s = true) :
    hasName (upsertRow now store p) s = true := by
  rw [hasName_iff_mem] at h ⊢
  unfold upsertRow
  split
  · rw [storeKeys_map_update]
    exact h
  · unfold storeKeys
    rw [List.map_append]
    exact List.mem_append_left _ h

theorem hasName_upsertRow_self (now : ℕ) (store : List CountryRow) (p : RowPayload) :
    hasName (upsertRow now store p) p.name = true := by
  unfold upsertRow
  cases hn : hasName store p.name with
  | true =>
    rw [if_pos rfl]
    rw [hasName_iff_mem, storeKeys_map_update, ← hasName_iff_mem]
    exact hn
  | false =>
    rw [if_neg (by simp)]
    unfold hasName
    rw [List.any_append]
    simp [lowerEq]

theorem upsertRow_length (now : ℕ) (store : List CountryRow) (p : RowPayload) :
    (upsertRow now store p).length
      = if hasName store p.name = true then store.length else store.length + 1 := by
  unfold upsertRow
  cases hn : hasName store p.name with
  | true => simp
  | false => simp

/-- Induction workhorse for the batch loop with no transaction failure: the
loop always completes, preserves distinctness of the case-insensitive keys,
only grows the key set, afterwards contains a row for every valid input
record, and does not change the row count when every valid input name is
already present. `hname` states that the payload name produced by the
reconcile step is the record's raw name, independent of the random draw. -/
theorem processLoop_upsert_facts (rec : ℚ → RawCountry → RowPayload) (draws : ℕ → ℚ)
    (now : ℕ) (hname : ∀ d c, (rec d c).name = c.name.getD "") :
    ∀ (countries : List RawCountry) (i : ℕ) (store : List CountryRow) (processed errs : ℕ),
      ∃ s q r,
        processLoop rec draws now none i countries (store, processed, errs) = some (s, q, r) ∧
        ((storeKeys store).Nodup → (storeKeys s).Nodup) ∧
        (∀ nm, hasName store nm = true → hasName s nm = true) ∧
        (∀ c ∈ countries, isValidCountry c = true → hasName s (c.name.getD "") = true) ∧
        ((∀ c ∈ countries, isValidCountry c = true →
            hasName store (c.name.getD "") = true) →
          s.length = store.length) := by
  intro countries
  induction countries with
  | nil =>
    intro i store p e
    exact ⟨store, p, e, rfl, fun h => h, fun nm h => h, by simp, fun _ => rfl⟩
  | cons c rest ih =>
    intro i store p e
    by_cases hv : isValidCountry c
    · obtain ⟨s, q, r, heq, hnodup, hmono, hpresent, hlen⟩ :=
        ih (i + 1) (upsertRow now store (rec (draws i) c)) (p + 1) e
      refine ⟨s, q, r, ?_, ?_, ?_, ?_, ?_⟩
      · simpa [processLoop, hv] using heq
      · intro hnd
        exact hnodup (storeKeys_upsert_nodup now store (rec (draws i) c) hnd)
      · intro nm h
        exact hmono nm (hasName_upsertRow_of now store (rec (draws i) c) nm h)
      · intro c2 hc2 hvc2
        rcases List.mem_cons.mp hc2 with rfl | hc2
        · apply hmono
          rw [← hname (draws i) c2]
          exact hasName_upsertRow_self now store (rec (draws i) c2)
        · exact hpresent c2 hc2 hvc2
      · intro hall
        have hc : hasName store (c.name.getD "") = true :=
          hall c (List.mem_cons_self c rest) hv
        have hup : (upsertRow now store (rec (draws i) c)).length = store.length := by
          rw [upsertRow_length, hname (draws i) c, hc]
          simp
        rw [← hup]
        apply hlen
        intro c2 hc2 hvc2
        exact hasName_upsertRow_of now store (rec (draws i) c) _
          (hall c2 (List.mem_cons_of_mem c hc2) hvc2)
    · obtain ⟨s, q, r, heq, hnodup, hmono, hpresent, hlen⟩ := ih (i + 1) store p (e + 1)
      refine ⟨s, q, r, by simpa [processLoop, hv] using heq, hnodup, hmono, ?_, ?_⟩
      · intro c2 hc2 hvc2
        rcases List.mem_cons.mp hc2 with rfl | hc2
        · rw [hvc2] at hv
          exact absurd rfl hv
        · exact hpresent c2 hc2 hvc2
      · intro hall
        exact hlen fun c2 hc2 hvc2 => hall c2 (List.mem_cons_of_mem c hc2) hvc2

/-- The loop with `failAt = none` always completes. -/
theorem processLoop_none_completes (rec : ℚ → RawCountry → RowPayload) (draws : ℕ → ℚ)
    (now : ℕ) :
    ∀ (countries : List RawCountry) (i : ℕ) (store : List CountryRow) (processed errs : ℕ),
      ∃ out, processLoop rec draws now none i countries (store, processed, errs) = some out := by
  intro countries
  induction countries with
  | nil => intro i store p e; exact ⟨(store, p, e), rfl⟩
  | cons c rest ih =>
    intro i store p e
    by_cases hv : isValidCountry c
    · obtain ⟨out, hout⟩ := ih (i + 1) (upsertRow now store (rec (draws i) c)) (p + 1) e
      exact ⟨out, by simpa [processLoop, hv] using hout⟩
    · obtain ⟨out, hout⟩ := ih (i + 1) store p (e + 1)
      exact ⟨out, by simpa [processLoop, hv] using hout⟩

/-- A batch in which every record fails validation leaves the store intact,
processes nothing and counts every record as rejected. -/
theorem processLoop_all_invalid (rec : ℚ → RawCountry → RowPayload) (draws : ℕ → ℚ)
    (now : ℕ) (failAt : Option ℕ) :
    ∀ (countries : List RawCountry) (i : ℕ) (store : List CountryRow) (processed errs : ℕ),
      (∀ c ∈ countries, isValidCountry c = false) →
      processLoop rec draws now failAt i countries (store, processed, errs)
        = some (store, processed, errs + countries.length) := by
  intro countries
  induction countries with
  | nil => intro i store p e _; rfl
  | cons c rest ih =>
    intro i store p e h
    have hc : isValidCountry c = false := h c (List.mem_cons_self c rest)
    have htail := ih (i + 1) store p (e + 1) fun c2 hc2 => h c2 (List.mem_cons_of_mem c hc2)
    calc processLoop rec draws now failAt i (c :: rest) (store, p, e)
        = processLoop rec draws now failAt (i + 1) rest (store, p, e + 1) := by
          simp [processLoop, hc]
      _ = some (store, p, e + 1 + rest.length) := htail
      _ = some (store, p, e + (c :: rest).length) := by
          have h3 : e + 1 + rest.length = e + (c :: rest).length := by
            rw [List.length_cons]
            omega
          rw [h3]

/-! C2 — run-metadata recording (corrected) -/

/-- C2, counterexample: a refresh in which both fetches succeed but the
upsert `client.query` of the first record throws records NO refresh_metadata
row at all — the transaction is rolled back, the error is rethrown and the
outer catch (countryController.js lines 401-411) answers 500 without any
metadata insert — contradicting "exactly one RefreshRun row per invocation,
including when the persistence transaction itself fails". -/
theorem C2_counterexample :
    (refresh_CC (.ok [cValid]) (.error ()) (.ok (some (some ratesXYZ)))
        (fun _ => 0) 9 (some 0) []).meta = [] ∧
    (refresh_CC (.ok [cValid]) (.error ()) (.ok (some (some ratesXYZ)))
        (fun _ => 0) 9 (some 0) []).http = 500 :=
  ⟨by decide, by decide⟩

/-- C2 (amended): exactly one RefreshRun row is recorded when the directory
fetch fails, when the rates fetch fails, and when the run completes; those
failure rows — and, in part_002 only, the completed row — are separate pool
writes outside the batch transaction, but countryController.js writes its
completed row through the transaction client, inside the batch transaction.
When the batch transaction itself fails (and, in part_002, when at least one
record was attempted and all were rejected) no row is recorded at all. -/
theorem C2_run_recording (v2 : Except Unit (List RawCountry))
    (resp : Option (Option (List (String × ℚ)))) (rl : List (String × ℚ))
    (ratesFetch : Except Unit (Option (Option (List (String × ℚ)))))
    (draws : ℕ → ℚ) (now : ℕ) (failAt : Option ℕ)
    (countries : List RawCountry) (store : List CountryRow) :
    (refresh_CC (.error ()) (.error ()) ratesFetch draws now failAt store).meta
      = [⟨0, .failedDirectoryUnavailable, false⟩] ∧
    (refresh_P2 (.error ()) (.error ()) ratesFetch draws now failAt store).meta
      = [⟨0, .failedDirectoryUnavailable, false⟩] ∧
    (refresh_CC (.ok countries) v2 (.error ()) draws now failAt store).meta
      = [⟨0, .failedRatesUnavailable, false⟩] ∧
    (refresh_P2 (.ok countries) v2 (.error ()) draws now failAt store).meta
      = [⟨0, .failedRatesUnavailable, false⟩] ∧
    (validateRates_CC resp = .ok rl →
      ∃ n, (refresh_CC (.ok countries) v2 (.ok resp) draws now none store).meta
        = [⟨n, .completed, true⟩]) ∧
    (validateRates_P2 resp = .ok rl →
      (∃ n, (refresh_P2 (.ok countries) v2 (.ok resp) draws now none store).meta
        = [⟨n, .completed, false⟩]) ∨
      (refresh_P2 (.ok countries) v2 (.ok resp) draws now none store).meta = []) ∧
    (validateRates_CC resp = .ok rl →
      processLoop (reconcile_CC (lookupRates rl)) draws now failAt 0 countries
        (store, 0, 0) = none →
      (refresh_CC (.ok countries) v2 (.ok resp) draws now failAt store).meta = []) ∧
    (validateRates_P2 resp = .ok rl →
      processLoop (reconcile_P2 (lookupRates rl)) draws now failAt 0 countries
        (store, 0, 0) = none →
      (refresh_P2 (.ok countries) v2 (.ok resp) draws now failAt store).meta = []) := by
  refine ⟨rfl, rfl, rfl, rfl, fun hv => ?_, fun hv => ?_, fun hv hfail => ?_, fun hv hfail => ?_⟩
  · rw [refresh_CC_tx v2 countries resp rl draws now none store hv]
    obtain ⟨⟨s, q, r⟩, hout⟩ :=
      processLoop_none_completes (reconcile_CC (lookupRates rl)) draws now countries 0 store 0 0
    unfold refreshTx_CC
    rw [hout]
    exact ⟨q, rfl⟩
  · rw [refresh_P2_tx v2 countries resp rl draws now none store hv]
    obtain ⟨⟨s, q, r⟩, hout⟩ :=
      processLoop_none_completes (reconcile_P2 (lookupRates rl)) draws now countries 0 store 0 0
    unfold refreshTx_P2
    rw [hout]
    dsimp only
    by_cases hrej : 0 < r ∧ q = 0
    · right
      rw [if_pos hrej]
    · left
      rw [if_neg hrej]
      exact ⟨q, rfl⟩
  · rw [refresh_CC_tx v2 countries resp rl draws now failAt store hv]
    unfold refreshTx_CC
    rw [hfail]
  · rw [refresh_P2_tx v2 countries resp rl draws now failAt store hv]
    unfold refreshTx_P2
    rw [hfail]

/-- C2, witness: at concrete inputs, a directory failure records one
separate failed row, a clean run records one completed row through the
transaction client, and the transaction-failure run records none. -/
theorem C2_recording_witness :
    (refresh_CC (.error ()) (.error ()) (.ok (some (some ratesXYZ)))
        (fun _ => 0) 9 (some 0) []).meta
      = [⟨0, .failedDirectoryUnavailable, false⟩] ∧
    (∃ n, (refresh_CC (.ok [cValid]) (.error ()) (.ok (some (some ratesXYZ)))
        (fun _ => 0) 9 none []).meta = [⟨n, .completed, true⟩]) ∧
    (refresh_CC (.ok [cValid]) (.error ()) (.ok (some (some ratesXYZ)))
        (fun _ => 0) 9 (some 0) []).meta = [] := by
  have h := C2_run_recording (.error ()) (some (some ratesXYZ)) ratesXYZ
    (.ok (some (some ratesXYZ))) (fun _ => 0) 9 (some 0) [cValid] []
  exact ⟨h.1, h.2.2.2.2.1 rfl, h.2.2.2.2.2.2.1 rfl (by decide)⟩

/-! C3 — all-records-rejected handling (corrected) -/

/-- C3, counterexample: a fetched batch whose single record fails validation
is NOT treated as a validation failure by countryController.js — there is no
all-rejected check in that variant, so the run commits, records a completed
metadata row with processedCount 0 inside the transaction, and answers 200. -/
theorem C3_counterexample :
    (refresh_CC (.ok [cInvalid]) (.error ()) (.ok (some (some ratesXYZ)))
        (fun _ => 0) 7 none []).http = 200 ∧
    (refresh_CC (.ok [cInvalid]) (.error ()) (.ok (some (some ratesXYZ)))
        (fun _ => 0) 7 none []).meta = [⟨0, .completed, true⟩] :=
  ⟨by decide, by decide⟩

/-- C3 (amended): when at least one record is attempted and every record is
rejected by validation, the part_002 variant behaves as the claim states —
the batch transaction is rolled back, no metadata row is written and the
caller gets a 400 validation failure — while countryController.js commits
the empty batch as a normal completed run (HTTP 200, one completed metadata
row with processedCount 0). In both variants no country rows change. -/
theorem C3_all_rejected (v2 : Except Unit (List RawCountry))
    (resp : Option (Option (List (String × ℚ)))) (rl : List (String × ℚ))
    (draws : ℕ → ℚ) (now : ℕ) (failAt : Option ℕ)
    (countries : List RawCountry) (store : List CountryRow)
    (hne : countries ≠ [])
    (hinv : ∀ c ∈ countries, isValidCountry c = false)
    (hv : validateRates_CC resp = .ok rl) :
    (refresh_P2 (.ok countries) v2 (.ok resp) draws now failAt store).store = store ∧
    (refresh_P2 (.ok countries) v2 (.ok resp) draws now failAt store).http = 400 ∧
    (refresh_P2 (.ok countries) v2 (.ok resp) draws now failAt store).meta = [] ∧
    (refresh_CC (.ok countries) v2 (.ok resp) draws now failAt store).store = store ∧
    (refresh_CC (.ok countries) v2 (.ok resp) draws now failAt store).http = 200 ∧
    (refresh_CC (.ok countries) v2 (.ok resp) draws now failAt store).meta
      = [⟨0, .completed, true⟩] := by
  obtain ⟨hresp, hlen⟩ := (validateRates_CC_ok_iff resp rl).mp hv
  subst hresp
  have hvP2 : validateRates_P2 (some (some rl)) = .ok rl := rfl
  have hpos : 0 < countries.length := List.length_pos.mpr hne
  have hloopP2 := processLoop_all_invalid (reconcile_P2 (lookupRates rl)) draws now failAt
    countries 0 store 0 0 hinv
  have hloopCC := processLoop_all_invalid (reconcile_CC (lookupRates rl)) draws now failAt
    countries 0 store 0 0 hinv
  have hP2 : refresh_P2 (.ok countries) v2 (.ok (some (some rl))) draws now failAt store
      = ⟨store, [], 400⟩ := by
    rw [refresh_P2_tx v2 countries (some (some rl)) rl draws now failAt store hvP2]
    unfold refreshTx_P2
    rw [hloopP2]
    dsimp only
    rw [if_pos ⟨by omega, rfl⟩]
  have hCC : refresh_CC (.ok countries) v2 (.ok (some (some rl))) draws now failAt store
      = ⟨store, [⟨0, .completed, true⟩], 200⟩ := by
    rw [refresh_CC_tx v2 countries (some (some rl)) rl draws now failAt store hv]
    unfold refreshTx_CC
    rw [hloopCC]
  rw [hP2, hCC]
  exact ⟨rfl, rfl, rfl, rfl, rfl, rfl⟩

/-- C3, witness: the one-record all-invalid batch `[cInvalid]` against the
valid rate table: part_002 rolls back with 400 and no metadata row,
countryController.js commits with 200. -/
theorem C3_all_rejected_witness :
    (refresh_P2 (.ok [cInvalid]) (.error ()) (.ok (some (some ratesXYZ)))
        (fun _ => 0) 7 none []).store = [] ∧
    (refresh_P2 (.ok [cInvalid]) (.error ()) (.ok (some (some ratesXYZ)))
        (fun _ => 0) 7 none []).http = 400 ∧
    (refresh_P2 (.ok [cInvalid]) (.error ()) (.ok (some (some ratesXYZ)))
        (fun _ => 0) 7 none []).meta = [] := by
  have h := C3_all_rejected (.error ()) (some (some ratesXYZ)) ratesXYZ (fun _ => 0) 7 none
    [cInvalid] [] (by simp) (by decide) rfl
  exact ⟨h.1, h.2.1, h.2.2.1⟩

/-! C4 — case-insensitive uniqueness and idempotence (confirmed) -/

/-- C4, confirmed: starting from a store whose case-insensitive names are
distinct (the invariant enforced by `idx_countries_name_unique`), a
successful refresh (both fetches succeed, no transaction failure) produces a
store whose case-insensitive names are again pairwise distinct, and
re-running the refresh on an unchanged upstream dataset — with fresh random
draws and a later clock — leaves the row count unchanged: every upsert of
the second run hits the conflict arm and updates in place. -/
theorem C4_refresh_idempotent (v2 : Except Unit (List RawCountry))
    (countries : List RawCountry) (resp : Option (Option (List (String × ℚ))))
    (rl : List (String × ℚ)) (d1 d2 : ℕ → ℚ) (n1 n2 : ℕ) (store : List CountryRow)
    (hv : validateRates_CC resp = .ok rl)
    (hstore : (storeKeys store).Nodup) :
    (storeKeys (refresh_CC (.ok countries) v2 (.ok resp) d1 n1 none store).store).Nodup ∧
    (refresh_CC (.ok countries) v2 (.ok resp) d1 n1 none store).http = 200 ∧
    (refresh_CC (.ok countries) v2 (.ok resp) d2 n2 none
        (refresh_CC (.ok countries) v2 (.ok resp) d1 n1 none store).store).store.length
      = (refresh_CC (.ok countries) v2 (.ok resp) d1 n1 none store).store.length := by
  have hname : ∀ d c, (reconcile_CC (lookupRates rl) d c).name = c.name.getD "" :=
    fun d c => rfl
  obtain ⟨s1, q1, r1, heq1, hnd1, hmono1, hpres1, hlen1⟩ :=
    processLoop_upsert_facts (reconcile_CC (lookupRates rl)) d1 n1 hname countries 0 store 0 0
  obtain ⟨s2, q2, r2, heq2, hnd2, hmono2, hpres2, hlen2⟩ :=
    processLoop_upsert_facts (reconcile_CC (lookupRates rl)) d2 n2 hname countries 0 s1 0 0
  have hout1 : refresh_CC (.ok countries) v2 (.ok resp) d1 n1 none store
      = ⟨s1, [⟨q1, .completed, true⟩], 200⟩ := by
    rw [refresh_CC_tx v2 countries resp rl d1 n1 none store hv]
    unfold refreshTx_CC
    rw [heq1]
  have hout2 : refresh_CC (.ok countries) v2 (.ok resp) d2 n2 none s1
      = ⟨s2, [⟨q2, .completed, true⟩], 200⟩ := by
    rw [refresh_CC_tx v2 countries resp rl d2 n2 none s1 hv]
    unfold refreshTx_CC
    rw [heq2]
  rw [hout1]
  refine ⟨hnd1 hstore, rfl, ?_⟩
  simp only [hout2]
  exact hlen2 fun c hc hvc => hpres1 c hc hvc

/-- C4, witness: refreshing `[cValid]` into the empty store yields distinct
keys and a 200, and re-running with different draws keeps the row count. -/
theorem C4_idempotent_witness :
    (storeKeys (refresh_CC (.ok [cValid]) (.error ()) (.ok (some (some ratesXYZ)))
        (fun _ => 0) 1 none []).store).Nodup ∧
    (refresh_CC (.ok [cValid]) (.error ()) (.ok (some (some ratesXYZ)))
        (fun _ => 0) 1 none []).http = 200 ∧
    (refresh_CC (.ok [cValid]) (.error ()) (.ok (some (some ratesXYZ)))
        (fun _ => 1/3) 2 none
        (refresh_CC (.ok [cValid]) (.error ()) (.ok (some (some ratesXYZ)))
          (fun _ => 0) 1 none []).store).store.length
      = (refresh_CC (.ok [cValid]) (.error ()) (.ok (some (some ratesXYZ)))
        (fun _ => 0) 1 none []).store.length :=
  C4_refresh_idempotent (.error ()) [cValid] (some (some ratesXYZ)) ratesXYZ
    (fun _ => 0) (fun _ => 1/3) 1 2 [] rfl (by simp [storeKeys])
